import Mathlib

set_option maxRecDepth 20000

namespace Fountain

/-! Shallow embedding of the fountain screenplay pipeline: the tokenizer of
`src/unnamed/part_002` (`Tokenize`) and the document builder of
`src/unnamed/part_001` (`Parser`).  JS strings are modelled as Lean `String`,
with the JS string operations re-implemented by structural recursion on the
character list so that every definition reduces in the kernel. -/

def ofChars (cs : List Char) : String := ⟨cs⟩

/-- JS `String.prototype.startsWith`, at the character-list level. -/
def listStartsWith : List Char → List Char → Bool
  | _, [] => true
  | [], _ :: _ => false
  | a :: as, b :: bs => if a = b then listStartsWith as bs else false

def strStartsWith (s p : String) : Bool := listStartsWith s.data p.data

def strEndsWith (s p : String) : Bool := listStartsWith s.data.reverse p.data.reverse

/-- JS `String.prototype.trim` (ASCII whitespace model). -/
def myTrim (s : String) : String :=
  ofChars (((s.data.dropWhile Char.isWhitespace).reverse.dropWhile Char.isWhitespace).reverse)

/-- JS `s.slice(n)` for a nonnegative `n`. -/
def strDrop (s : String) (n : Nat) : String := ofChars (s.data.drop n)

/-- ASCII model of JS `String.prototype.toUpperCase`. -/
def upChar (c : Char) : Char := if 'a' ≤ c ∧ c ≤ 'z' then Char.ofNat (c.toNat - 32) else c

def strToUpper (s : String) : String := ofChars (s.data.map upChar)

/-- JS `replace(/\s+/g, " ")`: collapse each maximal whitespace run to one space. -/
def collapseWSAux : List Char → Bool → List Char
  | [], _ => []
  | c :: rest, prevWS =>
    if c.isWhitespace then
      if prevWS then collapseWSAux rest true else ' ' :: collapseWSAux rest true
    else c :: collapseWSAux rest false

def collapseWS (s : String) : String := ofChars (collapseWSAux s.data false)

/-- JS `String.prototype.split` with a single-character separator. -/
def splitOnChar (sep : Char) : List Char → List (List Char)
  | [] => [[]]
  | c :: rest =>
    if c = sep then [] :: splitOnChar sep rest
    else
      match splitOnChar sep rest with
      | [] => [[c]]
      | h :: t => (c :: h) :: t

/-- Modelled from the spec: the repository's `rules.ts` module (exporting
`sceneTags`) is not under `src/`; §6 of the spec lists the recognized
scene-heading prefixes verbatim. -/
def sceneTags : List String :=
  ["INT", "EXT", "EST", "INT./EXT", "INT/EXT", "I/E", "E/I", "E./I.", "I./E.",
   "INT./EXT.", "EXT./INT."]

def startWithAny (line : String) (pats : List String) : Bool :=
  pats.any (fun p => strStartsWith line p)

/-- JS truthiness test `!prev || prev.trim() === ""` on an optional line. -/
def jsBlank : Option String → Bool
  | none => true
  | some s => if myTrim s = "" then true else false

def isScene (line : String) (prev next : Option String) : Bool :=
  if startWithAny line sceneTags ∧ jsBlank prev = true ∧ jsBlank next = true then true
  else false

def isTransition (line : String) (prev next : Option String) : Bool :=
  if line = strToUpper line ∧ (strEndsWith line ":" = true ∨ strEndsWith line "." = true) ∧
      jsBlank prev = true ∧ jsBlank next = true then true
  else false

def isCentered (line : String) : Bool :=
  strStartsWith (myTrim line) ">" && strEndsWith (myTrim line) "<"

def creditKeys : List String := ["Title:", "Credit:", "Author:", "Draft Date:", "Source:"]

def isCredit (line : String) : Bool := creditKeys.any (fun k => strStartsWith line k)

inductive TokenType where
  | dialogue
  | action
  | scene
  | character
  | parenthetical
  | transition
deriving DecidableEq, Repr

inductive ParseErrorType where
  | UnclosedParenthetical
  | InvalidCharacterName
  | InvalidSceneHeading
  | UnexpectedToken
deriving DecidableEq, Repr

structure ParseError where
  type : ParseErrorType
  line : Nat
  message : String
  context : Option String
deriving DecidableEq, Repr

structure Token where
  type : TokenType
  value : String
  forced : Bool := false
  centered : Bool := false
  extensions : List String := []
  isDual : Bool := false
deriving DecidableEq, Repr

structure CharacterParseResult where
  name : String
  extensions : List String
  isDual : Bool
deriving DecidableEq, Repr

/-- Character class of the regex `[A-Z.\s]` used by `parseCharacter`. -/
def isExtChar (c : Char) : Bool :=
  if ('A' ≤ c ∧ c ≤ 'Z') ∨ c = '.' ∨ c.isWhitespace = true then true else false

/-- One application of the regex `\(([A-Z.\s]+)\)$`: when `s` ends in
`"(" ++ inner ++ ")"` with `inner` a nonempty run of `[A-Z.\s]` characters,
return the text before the `(` and the inner text.  Since `(` and `)` are not
in the class, such a decomposition is unique, matching the regex engine. -/
def matchTrailingExt (s : String) : Option (String × String) :=
  if strEndsWith s ")" then
    let rcs := s.data.reverse.drop 1
    let rinner := rcs.takeWhile isExtChar
    match rcs.drop rinner.length with
    | '(' :: rbefore =>
      if rinner = [] then none
      else some (ofChars rbefore.reverse, ofChars rinner.reverse)
    | _ => none
  else none

/-- The `while ((match = parentheticalRegex.exec(text)) !== null)` loop of
`parseCharacter`; each match removes at least two characters, so the length
of the text is enough fuel. -/
def extractExts : Nat → String → List String → String × List String
  | 0, text, exts => (text, exts)
  | fuel + 1, text, exts =>
    match matchTrailingExt text with
    | none => (text, exts)
    | some (before, inner) =>
      let e := myTrim (collapseWS inner)
      extractExts fuel (myTrim before) (if e = "" then exts else e :: exts)

def parseCharacter (line : String) : Option CharacterParseResult :=
  if line = "" then none
  else
    let t0 := myTrim line
    let isDual := strEndsWith t0 "^"
    let t1 := if isDual then myTrim (ofChars t0.data.dropLast) else t0
    let r := extractExts t1.data.length t1 []
    if r.1 = "" then none
    else if r.1 ≠ strToUpper r.1 then none
    else some ⟨r.1, r.2, isDual⟩

structure TState where
  tokens : List Token
  errors : List ParseError
  metadata : List (String × Option String)
  prevTokenType : Option TokenType
deriving DecidableEq, Repr

/-- JS object property assignment `metadata[key] = v` (insertion order kept). -/
def recordSet (m : List (String × Option String)) (k : String) (v : Option String) :
    List (String × Option String) :=
  if m.any (fun p => decide (p.1 = k)) then
    m.map (fun p => if p.1 = k then (k, v) else p)
  else m ++ [(k, v)]

def unclosedMsg : String := "Parenthetical was not closed within 3 lines."

/-- `line.split(":")[0]?.trim()`. -/
def creditKey (line : String) : String :=
  myTrim (ofChars ((splitOnChar ':' line.data).headD []))

/-- `line.split(":")[1]?.trim()` followed by `value || null`. -/
def creditValue (line : String) : Option String :=
  match (splitOnChar ':' line.data).get? 1 with
  | some v => if myTrim (ofChars v) = "" then none else some (myTrim (ofChars v))
  | none => none

inductive ScanResult where
  | closedAt (j : Nat) (buffer : String)
  | unclosed (buffer : String)
deriving DecidableEq, Repr

/-- The bounded multi-line parenthetical `while` loop: starting at index `j`
with the given remaining line budget (`MAX_LINE = 3` initially), accumulate
continuation lines until one ends with `)` (closing at index `j`), a blank or
missing line is hit, or the budget runs out. -/
def parenScan (lines : List String) : Nat → Nat → String → ScanResult
  | _, 0, buffer => .unclosed buffer
  | j, budget + 1, buffer =>
    match lines.get? j with
    | none => .unclosed buffer
    | some l =>
      if myTrim l = "" then .unclosed buffer
      else
        let buffer1 := buffer ++ " " ++ myTrim l
        if strEndsWith (myTrim l) ")" then .closedAt j buffer1
        else parenScan lines (j + 1) budget buffer1

def prevOf (lines : List String) (i : Nat) : Option String :=
  if i = 0 then none else lines.get? (i - 1)

/-- The part of the per-line classifier after the character heuristic:
parenthetical handling, dialogue continuation, centered action and the
action fallback.  Returns the new state and the next value of the loop
counter (after the for-loop's `i++`). -/
def lineStepTail (lines : List String) (i : Nat) (st1 : TState) (line : String)
    (next : Option String) : TState × Nat :=
  if strStartsWith (myTrim line) "(" = true ∧
      (st1.prevTokenType = some .character ∨ st1.prevTokenType = some .dialogue) then
    if strEndsWith line ")" = false ∧ jsBlank next = true then
      ({ st1 with
          tokens := st1.tokens ++ [{ type := .dialogue, value := myTrim (strDrop line 1) }],
          prevTokenType := some .dialogue }, i + 1)
    else if strEndsWith line ")" = true then
      ({ st1 with
          tokens := st1.tokens ++
            [{ type := .parenthetical, value := ofChars ((line.data.drop 1).dropLast) }],
          prevTokenType := some .parenthetical }, i + 1)
    else
      match parenScan lines (i + 1) 3 line with
      | .closedAt j buf =>
        ({ st1 with
            tokens := st1.tokens ++
              [{ type := .parenthetical,
                 value := myTrim (ofChars (((myTrim buf).data.drop 1).dropLast)) }],
            prevTokenType := some .parenthetical }, j + 1)
      | .unclosed buf =>
        ({ st1 with
            errors := st1.errors ++
              [{ type := .UnclosedParenthetical, line := i, message := unclosedMsg,
                 context := some buf }],
            tokens := st1.tokens ++ [{ type := .parenthetical, value := myTrim buf }] }, i + 1)
  else if myTrim line ≠ "" ∧
      (st1.prevTokenType = some .character ∨ st1.prevTokenType = some .parenthetical) then
    ({ st1 with
        tokens := st1.tokens ++ [{ type := .dialogue, value := myTrim line }],
        prevTokenType := some .dialogue }, i + 1)
  else if isCentered line = true then
    ({ st1 with
        tokens := st1.tokens ++
          [{ type := .action,
             value := myTrim (ofChars (((line.data.dropWhile (fun c => decide (c = '>'))).reverse.dropWhile (fun c => decide (c = '<'))).reverse)),
             centered := true }],
        prevTokenType := some .action }, i + 1)
  else if myTrim line ≠ "" then
    ({ st1 with
        tokens := st1.tokens ++ [{ type := .action, value := line }],
        prevTokenType := some .action }, i + 1)
  else (st1, i + 1)

/-- The statement `if (line.trim().length === 0) { prevTokenType = null; }` of
the per-line loop: a whitespace-only line resets the remembered previous token
kind.  Note that a truly empty line never reaches this statement, because the
loop starts with `if (!line) continue;`. -/
def resetIfBlank (line : String) (st : TState) : TState :=
  if myTrim line = "" then { st with prevTokenType := none } else st

/-- One iteration of the tokenizer's per-line for-loop at index `i`, returning
the updated state and the next loop index (the closed multi-line parenthetical
case sets `i = j` before the loop's `i++`). -/
def lineStep (lines : List String) (i : Nat) (st : TState) : TState × Nat :=
  let line := (lines.get? i).getD ""
  let prev := prevOf lines i
  let next := lines.get? (i + 1)
  if line = "" then (st, i + 1)
  else if isCredit line = true then
    (if creditKey line = "" then st
     else { st with metadata := recordSet st.metadata (creditKey line) (creditValue line) },
     i + 1)
  else
    let st1 := resetIfBlank line st
    if strStartsWith (myTrim line) "!" = true then
      ({ st1 with
          tokens := st1.tokens ++
            [{ type := .action, value := myTrim (strDrop line 1), forced := true }],
          prevTokenType := some .action }, i + 1)
    else if strStartsWith (myTrim line) ">" = true ∧ isCentered line = false then
      ({ st1 with
          tokens := st1.tokens ++
            [{ type := .transition, value := myTrim (strDrop line 1), forced := true }] },
       i + 1)
    else if strStartsWith line "@" = true then
      ({ st1 with
          tokens := st1.tokens ++
            [{ type := .character, value := myTrim (strDrop line 1), forced := true }],
          prevTokenType := some .character }, i + 1)
    else if strStartsWith (myTrim line) "." = true then
      ({ st1 with
          tokens := st1.tokens ++
            [{ type := .scene, value := myTrim (strDrop line 1), forced := true }],
          prevTokenType := some .scene }, i + 1)
    else if isScene line prev next = true then
      ({ st1 with tokens := st1.tokens ++ [{ type := .scene, value := line }] }, i + 1)
    else if isTransition line prev next = true then
      ({ st1 with tokens := st1.tokens ++ [{ type := .transition, value := line }] }, i + 1)
    else
      match parseCharacter line with
      | some ch =>
        if jsBlank prev = true then
          ({ st1 with
              tokens := st1.tokens ++
                [{ type := .character, value := ch.name, extensions := ch.extensions,
                   isDual := ch.isDual }],
              prevTokenType := some .character }, i + 1)
        else lineStepTail lines i st1 line next
      | none => lineStepTail lines i st1 line next

/-- The tokenizer's for-loop, with an explicit fuel parameter; `Tokenize`
supplies `lines.length`, which is always enough since each `lineStep` moves
the loop index forward by at least one. -/
def tokenizeLoop (lines : List String) : Nat → Nat → TState → TState
  | 0, _, st => st
  | fuel + 1, i, st =>
    if i < lines.length then
      tokenizeLoop lines fuel (lineStep lines i st).2 (lineStep lines i st).1
    else st

structure TokenizeResult where
  metadata : List (String × Option String)
  tokens : List Token
  errors : List ParseError
deriving DecidableEq, Repr

def splitLines (text : String) : List String := (splitOnChar '\n' text.data).map ofChars

def Tokenize (text : String) : TokenizeResult :=
  let lines := splitLines text
  let st := tokenizeLoop lines lines.length 0 ⟨[], [], [], none⟩
  ⟨st.metadata, st.tokens, st.errors⟩

inductive SceneContent where
  | action (value : String) (forced : Bool)
  | dialogue (character : String) (parenthetical : Option String) (value : String) (forced : Bool)
  | transition (value : String) (forced : Bool)
deriving DecidableEq, Repr

structure SceneBlock where
  value : String
  content : List SceneContent
  forced : Bool
deriving DecidableEq, Repr

inductive ParseItem where
  | scene (b : SceneBlock)
  | top (c : SceneContent)
deriving DecidableEq, Repr

structure ParsedScreenplay where
  metadata : List (String × Option String)
  data : List ParseItem
deriving DecidableEq, Repr

/-- Builder fold state: `data` holds the finished top-level items, while the
open scene (pushed into `data` by reference in the JS source and mutated in
place) is kept separately in `currentScene` and flushed when a new scene
starts or at the end of the fold. -/
structure PState where
  data : List ParseItem
  currentScene : Option SceneBlock
  lastCharacter : Option String
  lastParenthetical : Option String
deriving DecidableEq, Repr

def sceneToItems : Option SceneBlock → List ParseItem
  | none => []
  | some b => [.scene b]

/-- `targetArray.push(c)`: into the open scene when there is one, else top level. -/
def pushContent (st : PState) (c : SceneContent) : PState :=
  match st.currentScene with
  | some b => { st with currentScene := some { b with content := b.content ++ [c] } }
  | none => { st with data := st.data ++ [.top c] }

/-- One step of the builder's token loop.  The source's `switch` has a case
labelled with the string `"parenthesis"`, which is not a member of the
tokenizer's `TokenType` union (the tokenizer emits `"parenthetical"`), so a
parenthetical token matches no case and leaves the state unchanged. -/
def parserStep (st : PState) (t : Token) : PState :=
  match t.type with
  | .scene =>
    { data := st.data ++ sceneToItems st.currentScene,
      currentScene := some { value := t.value, content := [], forced := t.forced },
      lastCharacter := none, lastParenthetical := none }
  | .action => pushContent st (.action t.value t.forced)
  | .transition => pushContent st (.transition t.value t.forced)
  | .character => { st with lastCharacter := some t.value, lastParenthetical := none }
  | .parenthetical => st
  | .dialogue =>
    let st2 := pushContent st
      (.dialogue (st.lastCharacter.getD "") st.lastParenthetical t.value t.forced)
    { st2 with lastParenthetical := none }

def buildDocument (metadata : List (String × Option String)) (tokens : List Token) :
    ParsedScreenplay :=
  let fin := tokens.foldl parserStep ⟨[], none, none, none⟩
  ⟨metadata, fin.data ++ sceneToItems fin.currentScene⟩

def Parser (text : String) : ParsedScreenplay :=
  buildDocument (Tokenize text).metadata (Tokenize text).tokens

/-! Helper lemmas about the embedded string primitives and the tokenizer
loop.  These are shared by the proofs of several claims. -/

lemma head_eq_of_listStartsWith {cs : List Char} {c : Char}
    (h : listStartsWith cs [c] = true) : cs.head? = some c := by
  cases cs with
  | nil => simp [listStartsWith] at h
  | cons a as =>
    simp only [listStartsWith] at h
    split at h
    · next heq => simp [heq]
    · exact absurd h (by simp)

lemma listStartsWith_single_of_head_ne {cs : List Char} {c d : Char}
    (h : cs.head? = some c) (hne : d ≠ c) : listStartsWith cs [d] = false := by
  cases cs with
  | nil => simp at h
  | cons a as =>
    simp only [List.head?_cons, Option.some.injEq] at h
    subst h
    simp only [listStartsWith]
    rw [if_neg (fun hh => hne hh.symm)]

lemma startsWith_single_head {s : String} {c : Char}
    (h : strStartsWith s (ofChars [c]) = true) : s.data.head? = some c :=
  head_eq_of_listStartsWith h

lemma startsWith_single_of_head_ne {s : String} {c d : Char}
    (h : s.data.head? = some c) (hne : d ≠ c) : strStartsWith s (ofChars [d]) = false :=
  listStartsWith_single_of_head_ne h hne

lemma ne_empty_of_head {s : String} {c : Char} (h : s.data.head? = some c) : s ≠ "" := by
  intro he
  subst he
  simp at h

lemma isScene_next_nonblank {line : String} {prev next : Option String}
    (h : jsBlank next = false) : isScene line prev next = false := by
  simp [isScene, h]

lemma isTransition_next_nonblank {line : String} {prev next : Option String}
    (h : jsBlank next = false) : isTransition line prev next = false := by
  simp [isTransition, h]

lemma tokenizeLoop_zero (lines : List String) (i : Nat) (st : TState) :
    tokenizeLoop lines 0 i st = st := rfl

lemma tokenizeLoop_succ (lines : List String) (fuel i : Nat) (st : TState) :
    tokenizeLoop lines (fuel + 1) i st =
      if i < lines.length then
        tokenizeLoop lines fuel (lineStep lines i st).2 (lineStep lines i st).1
      else st := rfl

lemma parenScan_step (lines : List String) (j b : Nat) (buf : String) :
    parenScan lines j (b + 1) buf =
      match lines.get? j with
      | none => .unclosed buf
      | some l =>
        if myTrim l = "" then .unclosed buf
        else if strEndsWith (myTrim l) ")" then .closedAt j (buf ++ " " ++ myTrim l)
        else parenScan lines (j + 1) b (buf ++ " " ++ myTrim l) := rfl

lemma parenScan_step_some (lines : List String) (j b : Nat) (buf l : String)
    (hl : lines.get? j = some l) :
    parenScan lines j (b + 1) buf =
      if myTrim l = "" then .unclosed buf
      else if strEndsWith (myTrim l) ")" then .closedAt j (buf ++ " " ++ myTrim l)
      else parenScan lines (j + 1) b (buf ++ " " ++ myTrim l) := by
  rw [parenScan_step, hl]

lemma parenScan_closedAt_bounds (lines : List String) :
    ∀ (b j0 j : Nat) (buf out : String),
      parenScan lines j0 b buf = .closedAt j out → j0 ≤ j ∧ j < j0 + b := by
  intro b
  induction b with
  | zero =>
    intro j0 j buf out h
    simp [parenScan] at h
  | succ n ih =>
    intro j0 j buf out h
    rw [parenScan_step] at h
    cases hl : lines.get? j0 with
    | none => rw [hl] at h; simp at h
    | some l =>
      rw [hl] at h
      simp only at h
      split at h
      · simp at h
      · split at h
        · injection h with h1 h2
          omega
        · have := ih (j0 + 1) j (buf ++ " " ++ myTrim l) out h
          omega

lemma parenScan3_unclosed (lines : List String) (k : Nat) (buf l1 l2 l3 : String)
    (h1 : lines.get? k = some l1) (h2 : lines.get? (k + 1) = some l2)
    (h3 : lines.get? (k + 2) = some l3)
    (hb1 : myTrim l1 ≠ "") (hb2 : myTrim l2 ≠ "") (hb3 : myTrim l3 ≠ "")
    (he1 : strEndsWith (myTrim l1) ")" = false) (he2 : strEndsWith (myTrim l2) ")" = false)
    (he3 : strEndsWith (myTrim l3) ")" = false) :
    parenScan lines k 3 buf =
      .unclosed (buf ++ " " ++ myTrim l1 ++ " " ++ myTrim l2 ++ " " ++ myTrim l3) := by
  rw [show (3 : Nat) = 2 + 1 from rfl, parenScan_step_some lines k 2 buf l1 h1,
    if_neg hb1, if_neg (by simp [he1])]
  rw [parenScan_step_some lines (k + 1) 1 _ l2 h2, if_neg hb2, if_neg (by simp [he2])]
  rw [parenScan_step_some lines (k + 1 + 1) 0 _ l3 (by rw [show k + 1 + 1 = k + 2 from rfl]; exact h3),
    if_neg hb3, if_neg (by simp [he3])]
  rfl

lemma lineStepTail_unclosed (lines : List String) (i : Nat) (st1 : TState) (line : String)
    (next : Option String) (buf : String)
    (hp : strStartsWith (myTrim line) "(" = true)
    (hprev : st1.prevTokenType = some .character ∨ st1.prevTokenType = some .dialogue)
    (hnc : strEndsWith line ")" = false)
    (hnb : jsBlank next = false)
    (hscan : parenScan lines (i + 1) 3 line = .unclosed buf) :
    lineStepTail lines i st1 line next =
      ({ st1 with
          errors := st1.errors ++
            [{ type := .UnclosedParenthetical, line := i, message := unclosedMsg,
               context := some buf }],
          tokens := st1.tokens ++ [{ type := .parenthetical, value := myTrim buf }] },
       i + 1) := by
  rw [lineStepTail.eq_def]
  rw [if_pos ⟨hp, hprev⟩]
  rw [if_neg (by simp [hnb])]
  rw [if_neg (by simp [hnc])]
  rw [hscan]

lemma lineStepTail_closed (lines : List String) (i : Nat) (st1 : TState) (line : String)
    (next : Option String) (j : Nat) (buf : String)
    (hp : strStartsWith (myTrim line) "(" = true)
    (hprev : st1.prevTokenType = some .character ∨ st1.prevTokenType = some .dialogue)
    (hnc : strEndsWith line ")" = false)
    (hnb : jsBlank next = false)
    (hscan : parenScan lines (i + 1) 3 line = .closedAt j buf) :
    lineStepTail lines i st1 line next =
      ({ st1 with
          tokens := st1.tokens ++
            [{ type := .parenthetical,
               value := myTrim (ofChars (((myTrim buf).data.drop 1).dropLast)) }],
          prevTokenType := some .parenthetical },
       j + 1) := by
  rw [lineStepTail.eq_def]
  rw [if_pos ⟨hp, hprev⟩]
  rw [if_neg (by simp [hnb])]
  rw [if_neg (by simp [hnc])]
  rw [hscan]

lemma resetIfBlank_of_nonblank {line : String} (st : TState) (h : myTrim line ≠ "") :
    resetIfBlank line st = st := by
  simp only [resetIfBlank]
  rw [if_neg h]

lemma lineStep_reaches_tail (lines : List String) (i : Nat) (st : TState) (line : String)
    (hline : lines.get? i = some line)
    (hp : strStartsWith (myTrim line) "(" = true)
    (hcred : isCredit line = false)
    (hat : strStartsWith line "@" = false)
    (hscn : isScene line (prevOf lines i) (lines.get? (i + 1)) = false)
    (htr : isTransition line (prevOf lines i) (lines.get? (i + 1)) = false)
    (hch : parseCharacter line = none ∨ jsBlank (prevOf lines i) = false) :
    lineStep lines i st = lineStepTail lines i st line (lines.get? (i + 1)) := by
  have hhead : (myTrim line).data.head? = some '(' := startsWith_single_head hp
  have hne : line ≠ "" := by
    intro h
    rw [h] at hp
    exact absurd hp (by decide)
  have htrimne : myTrim line ≠ "" := ne_empty_of_head hhead
  have hbang : strStartsWith (myTrim line) "!" = false :=
    startsWith_single_of_head_ne hhead (by decide)
  have hgt : strStartsWith (myTrim line) ">" = false :=
    startsWith_single_of_head_ne hhead (by decide)
  have hdot : strStartsWith (myTrim line) "." = false :=
    startsWith_single_of_head_ne hhead (by decide)
  rw [lineStep.eq_def]
  simp only [hline, Option.getD_some]
  rw [if_neg hne]
  rw [if_neg (by simp [hcred])]
  rw [resetIfBlank_of_nonblank st htrimne]
  rw [if_neg (by simp [hbang])]
  rw [if_neg (by simp [hgt])]
  rw [if_neg (by simp [hat])]
  rw [if_neg (by rw [hdot]; simp)]
  rw [if_neg (by rw [hscn]; simp)]
  rw [if_neg (by rw [htr]; simp)]
  rcases hch with h | h
  · rw [h]
  · cases hpc : parseCharacter line with
    | none => rfl
    | some ch => simp [h]

lemma lineStep_progress (lines : List String) (i : Nat) (st : TState) :
    i + 1 ≤ (lineStep lines i st).2 ∧ (lineStep lines i st).2 ≤ i + 4 := by
  have htail : ∀ (st1 : TState) (line : String) (next : Option String),
      i + 1 ≤ (lineStepTail lines i st1 line next).2 ∧
        (lineStepTail lines i st1 line next).2 ≤ i + 4 := by
    intro st1 line next
    rw [lineStepTail.eq_def]
    repeat' split
    all_goals dsimp only
    all_goals try omega
    next j buf heq =>
      have hb := parenScan_closedAt_bounds lines 3 (i + 1) j line buf heq
      omega
  rw [lineStep.eq_def]
  dsimp only
  repeat' split
  all_goals first
    | exact htail _ _ _
    | omega

lemma tokenizeLoop_succ_eq (lines : List String) :
    ∀ (fuel i : Nat) (st : TState), lines.length - i ≤ fuel →
      tokenizeLoop lines (fuel + 1) i st = tokenizeLoop lines fuel i st := by
  intro fuel
  induction fuel with
  | zero =>
    intro i st h
    have hi : ¬ i < lines.length := by omega
    rw [tokenizeLoop_succ, if_neg hi, tokenizeLoop_zero]
  | succ n ih =>
    intro i st h
    by_cases hi : i < lines.length
    · conv_lhs => rw [tokenizeLoop_succ]
      conv_rhs => rw [tokenizeLoop_succ]
      rw [if_pos hi, if_pos hi]
      apply ih
      have hp := (lineStep_progress lines i st).1
      omega
    · conv_lhs => rw [tokenizeLoop_succ]
      conv_rhs => rw [tokenizeLoop_succ]
      rw [if_neg hi, if_neg hi]

lemma tokenizeLoop_fuel_eq (lines : List String) :
    ∀ (fuel i : Nat) (st : TState), lines.length - i ≤ fuel →
      tokenizeLoop lines fuel i st = tokenizeLoop lines (lines.length - i) i st := by
  intro fuel
  induction fuel with
  | zero =>
    intro i st h
    have h0 : lines.length - i = 0 := by omega
    rw [h0]
  | succ n ih =>
    intro i st h
    by_cases hle : lines.length - i ≤ n
    · rw [tokenizeLoop_succ_eq lines n i st hle]
      exact ih i st hle
    · have heq : lines.length - i = n + 1 := by omega
      rw [heq]

lemma parseCharacter_name_upper (line : String) (r : CharacterParseResult)
    (h : parseCharacter line = some r) : r.name ≠ "" ∧ strToUpper r.name = r.name := by
  rw [parseCharacter.eq_def] at h
  split at h
  · exact absurd h (by simp)
  · dsimp only at h
    split at h
    all_goals
      split at h
      · exact absurd h (by simp)
      · split at h
        · exact absurd h (by simp)
        · rename_i hne hupp
          injection h with h
          subst h
          exact ⟨hne, (not_ne_iff.mp hupp).symm⟩

/-! Claim theorems. -/

/-- C1: evaluation of the pipeline at the spec's own example (blank line,
`JOHN`, `(whispering)`, `Hello.`, blank line).  The tokenizer does emit the
parenthetical token `whispering`, but the builder's `switch` matches the
string `"parenthesis"`, which the tokenizer never produces, so
`lastParenthetical` is never set and the resulting Dialogue node carries
`parenthetical = none` instead of `"whispering"` — the code contradicts the
claim (and its own token-type declaration). -/
theorem C1_parenthetical_dropped :
    (Tokenize "\nJOHN\n(whispering)\nHello.\n").tokens =
      [{ type := .character, value := "JOHN" },
       { type := .parenthetical, value := "whispering" },
       { type := .dialogue, value := "Hello." }]
  ∧ Parser "\nJOHN\n(whispering)\nHello.\n" =
      ⟨[], [.top (.dialogue "JOHN" none "Hello." false)]⟩ :=
  ⟨by decide, by decide⟩

/-- C2: evaluation of the tokenizer at `JOHN`, empty line, `hello`.  The
claim says the empty line resets the previous-token-kind state so that
`hello` becomes an action token; in the code `if (!line) continue;` skips a
truly empty line before the reset statement is reached, so `prevTokenType`
stays `character` and `hello` is classified as dialogue. -/
theorem C2_empty_line_no_reset :
    Tokenize "JOHN\n\nhello" =
      ⟨[], [{ type := .character, value := "JOHN" },
            { type := .dialogue, value := "hello" }], []⟩ := by
  decide

/-- C3 counterexample: an input in which a line satisfying the claim's
antecedent (index 1: trimmed form starts with `(` after a character cue,
followed by four non-blank lines none ending in `)`) yields an error list
with two `UnclosedParenthetical` entries, not exactly one: the unconsumed
continuation line `(b` starts a second failing scan. -/
theorem C3_two_errors_cex :
    (Tokenize "JOHN\n(a\n(b\nc\nd\ne").errors =
      [{ type := .UnclosedParenthetical, line := 1, message := unclosedMsg,
         context := some "(a (b c d" },
       { type := .UnclosedParenthetical, line := 2, message := unclosedMsg,
         context := some "(b c d e" }] := by
  decide

/-- C3 (amended): each multi-line parenthetical scan that fails to close
within the 3-line budget appends exactly one `UnclosedParenthetical` error —
line field the 0-based index of the originating line, the fixed message, and
the accumulated buffer as context — and still emits a parenthetical token
holding the trimmed accumulated buffer (leading `(` retained); the loop then
continues at the next line. -/
theorem C3_unclosed_appends_one (lines : List String) (i : Nat) (st : TState)
    (line l1 l2 l3 : String)
    (hline : lines.get? i = some line)
    (h1 : lines.get? (i + 1) = some l1) (h2 : lines.get? (i + 2) = some l2)
    (h3 : lines.get? (i + 3) = some l3)
    (hp : strStartsWith (myTrim line) "(" = true)
    (hprev : st.prevTokenType = some .character ∨ st.prevTokenType = some .dialogue)
    (hnc : strEndsWith line ")" = false)
    (hb1 : myTrim l1 ≠ "") (hb2 : myTrim l2 ≠ "") (hb3 : myTrim l3 ≠ "")
    (he1 : strEndsWith (myTrim l1) ")" = false) (he2 : strEndsWith (myTrim l2) ")" = false)
    (he3 : strEndsWith (myTrim l3) ")" = false)
    (hcred : isCredit line = false)
    (hat : strStartsWith line "@" = false)
    (hch : parseCharacter line = none ∨ jsBlank (prevOf lines i) = false) :
    lineStep lines i st =
      ({ st with
          errors := st.errors ++
            [{ type := .UnclosedParenthetical, line := i, message := unclosedMsg,
               context := some (line ++ " " ++ myTrim l1 ++ " " ++ myTrim l2 ++
                 " " ++ myTrim l3) }],
          tokens := st.tokens ++
            [{ type := .parenthetical,
               value := myTrim (line ++ " " ++ myTrim l1 ++ " " ++ myTrim l2 ++
                 " " ++ myTrim l3) }] },
       i + 1) := by
  have hb : jsBlank (lines.get? (i + 1)) = false := by
    rw [h1]
    simp [jsBlank, hb1]
  have hscan : parenScan lines (i + 1) 3 line =
      .unclosed (line ++ " " ++ myTrim l1 ++ " " ++ myTrim l2 ++ " " ++ myTrim l3) :=
    parenScan3_unclosed lines (i + 1) line l1 l2 l3 h1
      (by rw [show i + 1 + 1 = i + 2 from rfl]; exact h2)
      (by rw [show i + 1 + 2 = i + 3 from rfl]; exact h3)
      hb1 hb2 hb3 he1 he2 he3
  rw [lineStep_reaches_tail lines i st line hline hp hcred hat
    (isScene_next_nonblank hb) (isTransition_next_nonblank hb) hch]
  exact lineStepTail_unclosed lines i st line (lines.get? (i + 1)) _ hp hprev hnc hb hscan

/-- C3 witness: the amended step theorem applied to the concrete tokenizer
configuration reached after the character cue `JOHN`, at the unclosed
parenthetical `(a` followed by `b`, `c`, `d`. -/
theorem C3_unclosed_appends_one_w :
    lineStep ["JOHN", "(a", "b", "c", "d"] 1
      ⟨[{ type := .character, value := "JOHN" }], [], [], some .character⟩ =
      (⟨[{ type := .character, value := "JOHN" },
          { type := .parenthetical, value := "(a b c d" }],
        [{ type := .UnclosedParenthetical, line := 1, message := unclosedMsg,
           context := some "(a b c d" }],
        [], some .character⟩, 2) :=
  C3_unclosed_appends_one ["JOHN", "(a", "b", "c", "d"] 1
    ⟨[{ type := .character, value := "JOHN" }], [], [], some .character⟩
    "(a" "b" "c" "d" rfl rfl rfl rfl (by decide) (Or.inl rfl) (by decide)
    (by decide) (by decide) (by decide) (by decide) (by decide) (by decide)
    (by decide) (by decide) (Or.inl (by decide))

/-- C4 counterexample: the code splits the credit line on every `:` and keeps
only the second segment, so `Title: A: B` records `"A"`, not the entire text
after the first colon (`"A: B"`) as the claim states. -/
theorem C4_colon_truncation_cex :
    (Tokenize "Title: A: B").metadata = [("Title", some "A")] ∧ ("A" : String) ≠ "A: B" :=
  ⟨by decide, by decide⟩

/-- C4 (amended): a line starting with one of the five recognized keys
followed by `:` emits no token and records the key (text before the first
`:`, trimmed) mapped to the text between the first and the second `:`
(trimmed), or null when that text is empty — so `Title: A: B` maps `Title`
to `"A"`; Key-Value-shaped lines with an unrecognized key are not metadata
and fall through to ordinary classification. -/
theorem C4_credit_metadata :
    (∀ (lines : List String) (i : Nat) (st : TState) (line : String),
        lines.get? i = some line → line ≠ "" → isCredit line = true →
        creditKey line ≠ "" →
        lineStep lines i st =
          ({ st with
              metadata := recordSet st.metadata (creditKey line) (creditValue line) },
           i + 1))
  ∧ creditKey "Title: A: B" = "Title"
  ∧ creditValue "Title: A: B" = some "A"
  ∧ (Tokenize "Title: A: B").metadata = [("Title", some "A")]
  ∧ (Tokenize "Title: A: B").tokens = []
  ∧ isCredit "Foo: Bar" = false
  ∧ (Tokenize "Foo: Bar").metadata = []
  ∧ (Tokenize "Foo: Bar").tokens = [{ type := .action, value := "Foo: Bar" }] := by
  refine ⟨?_, by decide, by decide, by decide, by decide, by decide, by decide, by decide⟩
  intro lines i st line hline hne hcred hkey
  rw [lineStep.eq_def]
  simp only [hline, Option.getD_some]
  rw [if_neg hne, if_pos hcred, if_neg hkey]

/-- C4 witness: the credit step applied to the single line `Title: X`. -/
theorem C4_credit_metadata_w :
    lineStep ["Title: X"] 0 ⟨[], [], [], none⟩ =
      (⟨[], [], [("Title", some "X")], none⟩, 1) :=
  C4_credit_metadata.1 ["Title: X"] 0 ⟨[], [], [], none⟩ "Title: X" rfl
    (by decide) (by decide) (by decide)

/-- C5: character-line extraction — `JOHN^` yields name `JOHN` with
`isDual = true` (and, with no previous line, a character token), `JOHN
(V.O.)` yields name `JOHN` with extensions `["V.O."]`, and every successful
extraction returns a nonempty name equal to its own uppercase form. -/
theorem C5_character_extraction :
    parseCharacter "JOHN^" = some ⟨"JOHN", [], true⟩
  ∧ parseCharacter "JOHN (V.O.)" = some ⟨"JOHN", ["V.O."], false⟩
  ∧ (Tokenize "JOHN^").tokens = [{ type := .character, value := "JOHN", isDual := true }]
  ∧ ∀ (line : String) (r : CharacterParseResult),
      parseCharacter line = some r → r.name ≠ "" ∧ strToUpper r.name = r.name :=
  ⟨by decide, by decide, by decide, parseCharacter_name_upper⟩

/-- C5 witness: the name invariant instantiated at `JOHN^`. -/
theorem C5_character_extraction_w :
    ("JOHN" : String) ≠ "" ∧ strToUpper "JOHN" = "JOHN" :=
  C5_character_extraction.2.2.2 "JOHN^" ⟨"JOHN", [], true⟩ C5_character_extraction.1

/-- C6: evaluation of the classifier at a forced-action line with leading
whitespace.  The code removes the first character of the raw line
(`line.slice(1)`) instead of the `!` marker, so `"  !John opens the door."`
keeps its `!` in the emitted action text, contradicting the claim's
"holds also when the line has leading whitespace"; the unindented spec
example still produces the claimed top-level node. -/
theorem C6_forced_action_marker :
    (Tokenize "\n  !John opens the door.\n").tokens =
      [{ type := .action, value := "!John opens the door.", forced := true }]
  ∧ Parser "\n!John opens the door.\n" =
      ⟨[], [.top (.action "John opens the door." true)]⟩ :=
  ⟨by decide, by decide⟩

/-- C7: the builder's handling of a scene token — a new SceneBlock with the
token's text and forced flag and empty content is appended to the top-level
items, becomes the current scene, and both `lastCharacter` and
`lastParenthetical` are cleared, so a dialogue token that follows with no
intervening character token is attached with the empty-string character. -/
theorem C7_scene_token_reset (st : PState) (t d : Token)
    (ht : t.type = .scene) (hd : d.type = .dialogue) :
    parserStep st t =
      ⟨st.data ++ sceneToItems st.currentScene, some ⟨t.value, [], t.forced⟩, none, none⟩
  ∧ (parserStep st t).data ++ sceneToItems (parserStep st t).currentScene =
      (st.data ++ sceneToItems st.currentScene) ++ [.scene ⟨t.value, [], t.forced⟩]
  ∧ parserStep (parserStep st t) d =
      ⟨st.data ++ sceneToItems st.currentScene,
       some ⟨t.value, [.dialogue "" none d.value d.forced], t.forced⟩, none, none⟩ := by
  have h1 : parserStep st t =
      ⟨st.data ++ sceneToItems st.currentScene, some ⟨t.value, [], t.forced⟩, none, none⟩ := by
    rw [parserStep.eq_def, ht]
  refine ⟨h1, ?_, ?_⟩
  · rw [h1]
    rfl
  · rw [h1, parserStep.eq_def, hd]
    rfl

/-- C7 witness: a forced scene heading followed by a dialogue token, starting
from a state carrying a stale character and parenthetical. -/
theorem C7_scene_token_reset_w :
    parserStep ⟨[], none, some "X", some "y"⟩ { type := .scene, value := "INT. H", forced := true } =
      ⟨[], some ⟨"INT. H", [], true⟩, none, none⟩
  ∧ (parserStep ⟨[], none, some "X", some "y"⟩
        { type := .scene, value := "INT. H", forced := true }).data ++
      sceneToItems (parserStep ⟨[], none, some "X", some "y"⟩
        { type := .scene, value := "INT. H", forced := true }).currentScene =
      [.scene ⟨"INT. H", [], true⟩]
  ∧ parserStep (parserStep ⟨[], none, some "X", some "y"⟩
        { type := .scene, value := "INT. H", forced := true })
      { type := .dialogue, value := "Hi" } =
      ⟨[], some ⟨"INT. H", [.dialogue "" none "Hi" false], true⟩, none, none⟩ :=
  C7_scene_token_reset ⟨[], none, some "X", some "y"⟩
    { type := .scene, value := "INT. H", forced := true }
    { type := .dialogue, value := "Hi" } rfl rfl

/-- C8: the pipeline terminates on every input — each per-line step advances
the cursor by at least one and looks ahead at most three lines (next cursor
at most `i + 4`), and the tokenizer's fuel of one unit per input line is
enough: any budget at least as large yields the same final state, on every
input. -/
theorem C8_pipeline_terminates :
    (∀ (lines : List String) (i : Nat) (st : TState),
        i + 1 ≤ (lineStep lines i st).2 ∧ (lineStep lines i st).2 ≤ i + 4)
  ∧ (∀ (lines : List String) (fuel i : Nat) (st : TState), lines.length - i ≤ fuel →
        tokenizeLoop lines fuel i st = tokenizeLoop lines (lines.length - i) i st)
  ∧ (∀ (text : String) (fuel : Nat), (splitLines text).length ≤ fuel →
        tokenizeLoop (splitLines text) fuel 0 ⟨[], [], [], none⟩ =
          tokenizeLoop (splitLines text) (splitLines text).length 0 ⟨[], [], [], none⟩) := by
  refine ⟨lineStep_progress, tokenizeLoop_fuel_eq, ?_⟩
  intro text fuel h
  have h1 := tokenizeLoop_fuel_eq (splitLines text) fuel 0 ⟨[], [], [], none⟩ (by omega)
  have h2 := tokenizeLoop_fuel_eq (splitLines text) (splitLines text).length 0
    ⟨[], [], [], none⟩ (by omega)
  rw [h1, ← h2]

/-- C8 witness: extra fuel does not change the tokenizer's result on a
one-line input. -/
theorem C8_pipeline_terminates_w :
    tokenizeLoop ["A"] 5 0 ⟨[], [], [], none⟩ = tokenizeLoop ["A"] 1 0 ⟨[], [], [], none⟩ :=
  C8_pipeline_terminates.2.1 ["A"] 5 0 ⟨[], [], [], none⟩ (by decide)

/-- C9: the Parser keeps only the tokenizer's metadata and tokens — its
result is a function of those two components alone, so the ordered error
list (present and nonempty for an unclosed parenthetical input) is never
observable in the Parser's return value. -/
theorem C9_errors_not_observable :
    (∀ text : String, Parser text = buildDocument (Tokenize text).metadata (Tokenize text).tokens)
  ∧ (∀ t1 t2 : String, (Tokenize t1).metadata = (Tokenize t2).metadata →
        (Tokenize t1).tokens = (Tokenize t2).tokens → Parser t1 = Parser t2)
  ∧ (Tokenize "JOHN\n(a\nb\nc\nd").errors =
      [{ type := .UnclosedParenthetical, line := 1, message := unclosedMsg,
         context := some "(a b c d" }]
  ∧ Parser "JOHN\n(a\nb\nc\nd" =
      ⟨[], [.top (.dialogue "JOHN" none "b" false), .top (.action "c" false),
            .top (.action "d" false)]⟩ := by
  refine ⟨fun text => rfl, ?_, by decide, by decide⟩
  intro t1 t2 hm hk
  simp only [Parser]
  rw [hm, hk]

/-- C9 witness: two different raw texts with identical token and metadata
output parse to the same document. -/
theorem C9_errors_not_observable_w : Parser "A" = Parser "A\n" :=
  C9_errors_not_observable.2.1 "A" "A\n" (by decide) (by decide)

/-- C10: when the multi-line parenthetical scan fails to close, the loop
continues at `i + 1` — the scanned continuation lines are not consumed and
are classified again — while a scan closed at line `j` continues at `j + 1`;
concretely, after `JOHN`, `(a`, `b`, `c`, `d`, `e` the text `b` appears both
inside the emitted parenthetical buffer and as a later dialogue token. -/
theorem C10_unclosed_not_consumed :
    (∀ (lines : List String) (i : Nat) (st1 : TState) (line : String)
        (next : Option String) (buf : String),
        strStartsWith (myTrim line) "(" = true →
        (st1.prevTokenType = some .character ∨ st1.prevTokenType = some .dialogue) →
        strEndsWith line ")" = false → jsBlank next = false →
        parenScan lines (i + 1) 3 line = .unclosed buf →
        (lineStepTail lines i st1 line next).2 = i + 1)
  ∧ (∀ (lines : List String) (i : Nat) (st1 : TState) (line : String)
        (next : Option String) (j : Nat) (buf : String),
        strStartsWith (myTrim line) "(" = true →
        (st1.prevTokenType = some .character ∨ st1.prevTokenType = some .dialogue) →
        strEndsWith line ")" = false → jsBlank next = false →
        parenScan lines (i + 1) 3 line = .closedAt j buf →
        (lineStepTail lines i st1 line next).2 = j + 1)
  ∧ (Tokenize "JOHN\n(a\nb\nc\nd\ne").tokens =
      [{ type := .character, value := "JOHN" },
       { type := .parenthetical, value := "(a b c d" },
       { type := .dialogue, value := "b" },
       { type := .action, value := "c" },
       { type := .action, value := "d" },
       { type := .action, value := "e" }]
  ∧ (Tokenize "JOHN\n(a\nb\nc\nd\ne").errors =
      [{ type := .UnclosedParenthetical, line := 1, message := unclosedMsg,
         context := some "(a b c d" }] := by
  refine ⟨?_, ?_, by decide, by decide⟩
  · intro lines i st1 line next buf hp hprev hnc hnb hscan
    rw [lineStepTail_unclosed lines i st1 line next buf hp hprev hnc hnb hscan]
  · intro lines i st1 line next j buf hp hprev hnc hnb hscan
    rw [lineStepTail_closed lines i st1 line next j buf hp hprev hnc hnb hscan]

/-- C10 witness: the unclosed case at the concrete configuration after the
cue `JOHN`: the cursor moves from line 1 to line 2 only. -/
theorem C10_unclosed_not_consumed_w :
    (lineStepTail ["JOHN", "(a", "b", "c", "d"] 1 ⟨[], [], [], some .character⟩
      "(a" (some "b")).2 = 2 :=
  C10_unclosed_not_consumed.1 ["JOHN", "(a", "b", "c", "d"] 1
    ⟨[], [], [], some .character⟩ "(a" (some "b") "(a b c d"
    (by decide) (Or.inl rfl) (by decide) (by decide) (by decide)

end Fountain
